import Mathlib

/-!
# Verification of the Expense Tracker aggregation core

A shallow embedding of the expense-tracking server (`backend/server.js`)
and the dashboard's balance calculator (`frontend/src/components/ThemeToggle.jsx`,
`Dashboard` component), together with proofs of the spec's testable properties.

Modelling conventions:
* JS numbers used as money amounts are modelled as `ℚ` (exact arithmetic).
* A stored `Date` is modelled by its extracted calendar components
  `(year, month, day)`, which is all the aggregation pipeline
  (`$year`, `$month`, `$dayOfMonth`) and the dashboard
  (`getFullYear`, `getMonth`) ever read from it.
* MongoDB document ids and user ids are modelled as `Nat`.
* The MongoDB `$group` stage produces one group per distinct key; we model
  the groups as the deduplicated list of keys paired with per-key sums, and
  the `$sort` stage as `List.insertionSort` on the group key.
-/

/-- Calendar components of a stored timestamp: exactly the fields the code
reads via `$year` / `$month` / `$dayOfMonth` (Mongo) and
`getFullYear()` / `getMonth()` (JS). On a real timestamp `month ∈ [1,12]`
and `day ∈ [1,31]`; the structure itself does not enforce this. -/
structure Date where
  year : Nat
  month : Nat
  day : Nat
deriving DecidableEq, Repr

/-- An `Expense` document (ExpenseSchema, server.js lines 41-47). -/
structure Expense where
  id : Nat
  user : Nat
  title : String
  amount : ℚ
  category : String
  date : Date
deriving DecidableEq, Repr

/-- A `User` document, keeping only the fields the income routes touch
(UserSchema, server.js lines 21-26). -/
structure User where
  id : Nat
  name : String
  email : String
  monthlyIncome : ℚ
deriving DecidableEq, Repr

/-- One element of the monthly summary response
(`formattedData`, server.js lines 205-208). -/
structure MonthlyBucket where
  label : String
  total : ℚ
deriving DecidableEq, Repr

/-- One element of the daily summary's `days` array (server.js line 242). -/
structure DailyBucket where
  day : Nat
  total : ℚ
deriving DecidableEq, Repr

/-- The daily summary response body (`formattedData`, server.js lines 240-243). -/
structure DailyResult where
  month : String
  days : List DailyBucket
deriving DecidableEq, Repr

/-- Error outcomes of the daily-summary route. -/
inductive Err where
  | validationError
deriving DecidableEq, Repr

/-- Sum of the `amount` fields of a list of expenses (the `$sum: '$amount'`
accumulator of a `$group` stage). -/
def sumAmounts (l : List Expense) : ℚ :=
  (l.map Expense.amount).sum

/-! ## Balance Calculator (Dashboard component) -/

/-- `currentMonthTotal` (ThemeToggle.jsx / Dashboard, lines 69-79): filter the
expense list to entries whose date has the same calendar year and month as
`now`, then `reduce((total, e) => total + e.amount, 0)`. -/
def currentMonthTotal (expenses : List Expense) (now : Date) : ℚ :=
  (expenses.filter fun e =>
      decide (e.date.year = now.year) && decide (e.date.month = now.month)).foldl
    (fun total e => total + e.amount) 0

/-- `availableBalance` (Dashboard, line 81): `monthlyIncome - currentMonthTotal`. -/
def availableBalance (monthlyIncome currentMonthTotal : ℚ) : ℚ :=
  monthlyIncome - currentMonthTotal

/-- The CSS class chosen for the balance display (Dashboard, line 200):
`availableBalance >= 0 ? 'balance-positive' : 'balance-negative'`. -/
def balanceClass (balance : ℚ) : String :=
  if 0 ≤ balance then "balance-positive" else "balance-negative"

/-! ## Generic group-and-sum lemmas -/

/-- Total of the group of `l` with key `k` under key function `key`. -/
def groupTotal {κ : Type} [DecidableEq κ] (key : Expense → κ) (l : List Expense) (k : κ) : ℚ :=
  sumAmounts (l.filter fun e => decide (key e = k))

theorem sumAmounts_nil : sumAmounts [] = 0 := rfl

theorem sumAmounts_cons (e : Expense) (l : List Expense) :
    sumAmounts (e :: l) = e.amount + sumAmounts l := by
  simp [sumAmounts]

/-- Splitting a list by a boolean predicate splits its amount sum. -/
theorem sumAmounts_filter_partition (p : Expense → Bool) (l : List Expense) :
    sumAmounts (l.filter p) + sumAmounts (l.filter fun e => !(p e)) = sumAmounts l := by
  induction l with
  | nil => simp [sumAmounts]
  | cons e t ih =>
    by_cases h : p e = true
    · simp [List.filter_cons, h, sumAmounts_cons]
      linarith [ih]
    · simp only [Bool.not_eq_true] at h
      simp [List.filter_cons, h, sumAmounts_cons]
      linarith [ih]

/-- Filtering on a different key first does not change a group. -/
theorem filter_key_of_ne {κ : Type} [DecidableEq κ] (key : Expense → κ) (l : List Expense)
    {k k' : κ} (hne : k' ≠ k) :
    (l.filter fun e => !(decide (key e = k))).filter (fun e => decide (key e = k')) =
      l.filter fun e => decide (key e = k') := by
  induction l with
  | nil => rfl
  | cons e t ih =>
    by_cases h : key e = k
    · have h' : ¬ (key e = k') := by
        intro hk; exact hne (by rw [← hk, h])
      simp [List.filter_cons, h, h', ih, Ne.symm hne]
    · by_cases h' : key e = k'
      · simp [List.filter_cons, h, h', ih, hne]
      · simp [List.filter_cons, h, h', ih, hne]

/-- Summing the per-group totals over a duplicate-free list of keys covering
every element recovers the total sum. -/
theorem sum_groupTotals {κ : Type} [DecidableEq κ] (key : Expense → κ) :
    ∀ (K : List κ) (l : List Expense), K.Nodup → (∀ e ∈ l, key e ∈ K) →
      (K.map (groupTotal key l)).sum = sumAmounts l
  | [], l, _, hcov => by
    cases l with
    | nil => simp [sumAmounts]
    | cons e t => exact absurd (hcov e (List.mem_cons_self e t)) (List.not_mem_nil _)
  | k :: K', l, hnd, hcov => by
    have hk_notin : k ∉ K' := (List.nodup_cons.mp hnd).1
    have hnd' : K'.Nodup := (List.nodup_cons.mp hnd).2
    have hrest :
        (K'.map (groupTotal key l)).sum =
          (K'.map (groupTotal key (l.filter fun e => !(decide (key e = k))))).sum := by
      have : ∀ k' ∈ K', groupTotal key l k' =
          groupTotal key (l.filter fun e => !(decide (key e = k))) k' := by
        intro k' hk'
        have hne : k' ≠ k := fun h => hk_notin (h ▸ hk')
        unfold groupTotal
        rw [filter_key_of_ne key l hne]
      rw [List.map_congr_left this]
    have hcov' : ∀ e ∈ (l.filter fun e => !(decide (key e = k))), key e ∈ K' := by
      intro e he
      rcases List.mem_filter.mp he with ⟨hel, hne⟩
      have : ¬ (key e = k) := by simpa using hne
      rcases List.mem_cons.mp (hcov e hel) with h | h
      · exact absurd h this
      · exact h
    have ih := sum_groupTotals key K' (l.filter fun e => !(decide (key e = k))) hnd' hcov'
    calc ((k :: K').map (groupTotal key l)).sum
        = groupTotal key l k + (K'.map (groupTotal key l)).sum := by simp
      _ = sumAmounts (l.filter fun e => decide (key e = k)) +
            sumAmounts (l.filter fun e => !(decide (key e = k))) := by
          rw [hrest, ih]; rfl
      _ = sumAmounts l := sumAmounts_filter_partition _ l

/-! ## Decimal rendering and month-string parsing

`monthlySummary` builds labels with a JS template literal
`` `${year}-${String(month).padStart(2, '0')}` `` and `dailySummary` parses
its `month` query parameter with `month.split('-')` and `parseInt`.
We embed the decimal rendering of a JS number (a nonnegative integer here)
as `natRepr`, `padStart(2, '0')` as `pad2`, `split('-')` as `splitDash`,
and `parseInt` on a digit string as `digitsVal`. -/

/-- The ASCII digit character for `d < 10`. -/
def digitChar (d : Nat) : Char :=
  Char.ofNat (48 + d)

/-- Fuel-driven worker for `natRepr`; `fuel > n` always suffices because the
argument shrinks by a factor of ten at each step. -/
def natReprAux (fuel n : Nat) : List Char :=
  match fuel with
  | 0 => []
  | fuel + 1 =>
    if n < 10 then [digitChar n]
    else natReprAux fuel (n / 10) ++ [digitChar (n % 10)]

/-- Decimal representation of a natural number, most significant digit
first (the digits of the JS template interpolation `${n}`). -/
def natRepr (n : Nat) : List Char :=
  natReprAux (n + 1) n

theorem natReprAux_irrel (n : Nat) :
    ∀ f1 f2, n < f1 → n < f2 → natReprAux f1 n = natReprAux f2 n := by
  induction n using Nat.strong_induction_on with
  | _ n ih =>
    intro f1 f2 h1 h2
    match f1, f2 with
    | g1 + 1, g2 + 1 =>
      simp only [natReprAux]
      by_cases h : n < 10
      · simp [h]
      · simp only [h, if_false]
        rw [ih (n / 10) (by omega) g1 (n / 10 + 1) (by omega) (by omega),
          ih (n / 10) (by omega) g2 (n / 10 + 1) (by omega) (by omega)]

/-- The recursion `natRepr` satisfies. -/
theorem natRepr_eq (n : Nat) :
    natRepr n = if n < 10 then [digitChar n]
      else natRepr (n / 10) ++ [digitChar (n % 10)] := by
  by_cases h : n < 10
  · simp [natRepr, natReprAux, h]
  · unfold natRepr
    rw [natReprAux, if_neg h, if_neg h]
    exact congrArg (· ++ [digitChar (n % 10)])
      (natReprAux_irrel (n / 10) n (n / 10 + 1) (by omega) (by omega))

/-- `String(m).padStart(2, '0')`: prepend zeros until the length is 2. -/
def pad2 (m : Nat) : List Char :=
  let s := natRepr m
  if s.length < 2 then List.replicate (2 - s.length) '0' ++ s else s

/-- The monthly-summary label for group key `(year, month)`
(server.js line 206): `` `${year}-${String(month).padStart(2, '0')}` ``. -/
def fmtLabel (k : Nat × Nat) : String :=
  String.mk (natRepr k.1 ++ '-' :: pad2 k.2)

/-- The test `/^\d{4}-\d{2}$/.test(month)` (server.js line 219): exactly
four digits, a hyphen, and two digits. The route also rejects a missing or
empty `month` (`!month`), which this test already rejects. -/
def monthRe (s : String) : Bool :=
  match s.data with
  | [a, b, c, d, e, f, g] =>
    a.isDigit && b.isDigit && c.isDigit && d.isDigit &&
      decide (e = '-') && f.isDigit && g.isDigit
  | _ => false

/-- `split('-')`: cut a character list at every hyphen. -/
def splitDash : List Char → List (List Char)
  | [] => [[]]
  | c :: rest =>
    if c = '-' then [] :: splitDash rest
    else
      match splitDash rest with
      | [] => [[c]]
      | seg :: segs => (c :: seg) :: segs

/-- `parseInt` on a string of decimal digits. -/
def digitsVal (cs : List Char) : Nat :=
  cs.foldl (fun n c => n * 10 + (c.toNat - 48)) 0

/-- The `year` and `month` numbers the daily route extracts from its query
parameter (server.js lines 222-223):
`parseInt(month.split('-')[0])` and `parseInt(month.split('-')[1])`. -/
def parseMonthParam (s : String) : Nat × Nat :=
  let parts := splitDash s.data
  (digitsVal (parts.headD []), digitsVal ((parts.drop 1).headD []))

/-! ## Aggregation Engine (summary routes) -/

/-- The grouping key of the monthly pipeline:
`{ year: { $year: '$date' }, month: { $month: '$date' } }`. -/
def ekey (e : Expense) : Nat × Nat :=
  (e.date.year, e.date.month)

/-- The `$sort: { '_id.year': 1, '_id.month': 1 }` order on group keys. -/
def lexLe (a b : Nat × Nat) : Prop :=
  a.1 < b.1 ∨ (a.1 = b.1 ∧ a.2 ≤ b.2)

instance : DecidableRel lexLe := fun a b =>
  inferInstanceAs (Decidable (a.1 < b.1 ∨ (a.1 = b.1 ∧ a.2 ≤ b.2)))

instance : IsTotal (Nat × Nat) lexLe where
  total a b := by unfold lexLe; omega

instance : IsTrans (Nat × Nat) lexLe where
  trans a b c hab hbc := by
    unfold lexLe at hab hbc ⊢; omega

/-- The caller's expenses: `$match: { user: ObjectId(req.user.id) }`
(also `Expense.find({ user: req.user.id })` of the list route). -/
def ownerExpenses (store : List Expense) (owner : Nat) : List Expense :=
  store.filter fun e => decide (e.user = owner)

/-- The sorted list of distinct `(year, month)` group keys of the caller's
expenses: the `$group` stage produces one group per distinct key and the
`$sort` stage orders them ascending by year then month. -/
def monthlySummaryKeys (store : List Expense) (owner : Nat) : List (Nat × Nat) :=
  List.insertionSort lexLe ((ownerExpenses store owner).map ekey).dedup

/-- GET `/api/expenses/summary/monthly` (server.js lines 193-213): group the
caller's expenses by `(year, month)` of `date`, sum `amount` per group, sort
ascending by year then month, then format each group as
`{ label: "YYYY-MM", total }`. -/
def monthlySummary (store : List Expense) (owner : Nat) : List MonthlyBucket :=
  (monthlySummaryKeys store owner).map fun k =>
    ⟨fmtLabel k, groupTotal ekey (ownerExpenses store owner) k⟩

/-- The `$match` stage of the daily pipeline (server.js lines 226-236):
the caller's expenses whose date has calendar year `p.1` and month `p.2`. -/
def dailyMatched (store : List Expense) (owner : Nat) (p : Nat × Nat) : List Expense :=
  store.filter fun e =>
    decide (e.user = owner) && decide (e.date.year = p.1) && decide (e.date.month = p.2)

/-- The `$group`-by-day, `$sum` and `$sort`-by-day stages of the daily
pipeline followed by the `days` formatting (server.js lines 237-242). -/
def dailyDays (store : List Expense) (owner : Nat) (p : Nat × Nat) : List DailyBucket :=
  (List.insertionSort (· ≤ ·)
      ((dailyMatched store owner p).map (fun e => e.date.day)).dedup).map
    fun d => ⟨d, groupTotal (fun e => e.date.day) (dailyMatched store owner p) d⟩

/-- GET `/api/expenses/summary/daily?month=YYYY-MM` (server.js lines
217-248): reject a `month` that fails the regex with a 400 before any store
access; otherwise parse `year` and `monthNum`, match the caller's expenses
with that calendar year and month, group by day of month, sum `amount` per
day, sort by day, and answer `{ month, days }`. -/
def dailySummary (store : List Expense) (owner : Nat) (month : String) :
    Except Err DailyResult :=
  if monthRe month then
    Except.ok ⟨month, dailyDays store owner (parseMonthParam month)⟩
  else
    Except.error Err.validationError

/-! ## CRUD routes: create, delete, income -/

/-- The `category` enum of ExpenseSchema (server.js line 45). -/
def validCategory (c : String) : Bool :=
  decide (c = "Food") || decide (c = "Travel") || decide (c = "Bills") || decide (c = "Other")

/-- POST `/api/expenses` (server.js lines 136-151): build the new document
from the request body and the authenticated caller, and save it. Mongoose
rejects a missing/empty `title` and a `category` outside the enum
(`required` validators), surfaced as an error response; the schema puts no
constraint at all on `amount` beyond being a number. `newId` stands for the
fresh `_id` Mongo assigns. On success the saved document is appended to the
store and echoed back. -/
def createExpense (store : List Expense) (newId owner : Nat) (title : String)
    (amount : ℚ) (category : String) (date : Date) : List Expense × Option Expense :=
  if decide (title ≠ "") && validCategory category then
    let e : Expense := ⟨newId, owner, title, amount, category, date⟩
    (store ++ [e], some e)
  else
    (store, none)

/-- `Expense.findById(req.params.id)` (server.js line 168). -/
def findById (store : List Expense) (id : Nat) : Option Expense :=
  store.find? fun e => decide (e.id = id)

/-- Outcome of the delete route. -/
inductive DeleteResp where
  | removed
  | notFound
  | notAuthorized
deriving DecidableEq, Repr

/-- DELETE `/api/expenses/:id` (server.js lines 166-186): look the document
up by id; 404 when absent; 401 when the caller is not the owner (the store
untouched); otherwise `findByIdAndDelete` removes the document with that id.
Returns the resulting store and the response. -/
def deleteExpense (store : List Expense) (id caller : Nat) :
    List Expense × DeleteResp :=
  match findById store id with
  | none => (store, DeleteResp.notFound)
  | some e =>
    if e.user = caller then
      (store.filter fun x => decide (x.id ≠ id), DeleteResp.removed)
    else
      (store, DeleteResp.notAuthorized)

/-- A JSON body value for the income route: a number, or anything else
(string, null, missing field, ...) for which `typeof income !== 'number'`. -/
inductive JsValue where
  | num (q : ℚ)
  | other
deriving DecidableEq, Repr

/-- Outcome of the income update route. -/
inductive IncomeResp where
  | updated (monthlyIncome : ℚ)
  | invalid
  | userMissing
deriving DecidableEq, Repr

/-- The guard `typeof income !== 'number' || income < 0` (server.js
line 271), negated: `v` is a number and non-negative. -/
def validIncome (v : JsValue) : Bool :=
  match v with
  | JsValue.num q => decide (0 ≤ q)
  | JsValue.other => false

/-- The stored `monthlyIncome` of a user, when the user exists
(GET `/api/user/income`, server.js lines 255-265). -/
def getIncome (users : List User) (owner : Nat) : Option ℚ :=
  (users.find? fun u => decide (u.id = owner)).map User.monthlyIncome

/-- POST `/api/user/income` (server.js lines 269-285): 400 before any store
access when the body's `income` is not a number or is negative; 404 when the
authenticated user's document is gone; otherwise overwrite `monthlyIncome`,
save, and answer with the stored value. Returns the resulting user
collection and the response. -/
def setIncome (users : List User) (owner : Nat) (v : JsValue) :
    List User × IncomeResp :=
  match v with
  | JsValue.other => (users, IncomeResp.invalid)
  | JsValue.num q =>
    if q < 0 then (users, IncomeResp.invalid)
    else
      match users.find? fun u => decide (u.id = owner) with
      | none => (users, IncomeResp.userMissing)
      | some _ =>
        (users.map fun u => if u.id = owner then { u with monthlyIncome := q } else u,
          IncomeResp.updated q)

/-! ## Facts about digits, decimal rendering and label parsing -/

theorem digitChar_toNat : ∀ d < 10, (digitChar d).toNat = 48 + d := by decide

theorem digitChar_isDigit : ∀ d < 10, (digitChar d).isDigit = true := by decide

theorem ne_dash_of_isDigit (c : Char) (h : c.isDigit = true) : c ≠ '-' := by
  intro he
  rw [he] at h
  simp [Char.isDigit] at h

theorem natRepr_all_digits (n : Nat) : ∀ c ∈ natRepr n, c.isDigit = true := by
  induction n using Nat.strong_induction_on with
  | _ n ih =>
    rw [natRepr_eq]
    by_cases h : n < 10
    · simp only [h, if_true, List.mem_singleton]
      intro c hc
      rw [hc]
      exact digitChar_isDigit n h
    · simp only [h, if_false, List.mem_append, List.mem_singleton]
      intro c hc
      rcases hc with hc | hc
      · exact ih (n / 10) (by omega) c hc
      · rw [hc]
        exact digitChar_isDigit (n % 10) (by omega)

theorem digitsVal_append_digit (cs : List Char) (c : Char) :
    digitsVal (cs ++ [c]) = 10 * digitsVal cs + (c.toNat - 48) := by
  simp [digitsVal, List.foldl_append]
  omega

/-- `parseInt` inverts the decimal rendering. -/
theorem digitsVal_natRepr (n : Nat) : digitsVal (natRepr n) = n := by
  induction n using Nat.strong_induction_on with
  | _ n ih =>
    rw [natRepr_eq]
    by_cases h : n < 10
    · simp only [h, if_true]
      simp [digitsVal, digitChar_toNat n h]
    · simp only [h, if_false]
      rw [digitsVal_append_digit, ih (n / 10) (by omega),
        digitChar_toNat (n % 10) (by omega)]
      omega

theorem natRepr_length_lt10 (n : Nat) (h : n < 10) : (natRepr n).length = 1 := by
  rw [natRepr_eq]
  simp [h]

theorem natRepr_length2 (n : Nat) (h1 : 10 ≤ n) (h2 : n < 100) :
    (natRepr n).length = 2 := by
  rw [natRepr_eq, if_neg (by omega)]
  rw [List.length_append, natRepr_length_lt10 (n / 10) (by omega)]
  rfl

theorem natRepr_length3 (n : Nat) (h1 : 100 ≤ n) (h2 : n < 1000) :
    (natRepr n).length = 3 := by
  rw [natRepr_eq, if_neg (by omega)]
  rw [List.length_append, natRepr_length2 (n / 10) (by omega) (by omega)]
  rfl

theorem natRepr_length4 (n : Nat) (h1 : 1000 ≤ n) (h2 : n < 10000) :
    (natRepr n).length = 4 := by
  rw [natRepr_eq, if_neg (by omega)]
  rw [List.length_append, natRepr_length3 (n / 10) (by omega) (by omega)]
  rfl

theorem pad2_lt10 (m : Nat) (h : m < 10) : pad2 m = ['0', digitChar m] := by
  unfold pad2
  rw [natRepr_eq]
  simp [h, List.replicate]

theorem pad2_ge10 (m : Nat) (h1 : 10 ≤ m) (h2 : m < 100) : pad2 m = natRepr m := by
  have hl := natRepr_length2 m h1 h2
  simp [pad2, hl]

theorem pad2_all_digits (m : Nat) : ∀ c ∈ pad2 m, c.isDigit = true := by
  unfold pad2
  intro c hc
  by_cases h : (natRepr m).length < 2
  · simp only [h, if_true, List.mem_append] at hc
    rcases hc with hc | hc
    · have : c = '0' := List.eq_of_mem_replicate hc
      rw [this]
      decide
    · exact natRepr_all_digits m c hc
  · simp only [h, if_false] at hc
    exact natRepr_all_digits m c hc

theorem pad2_length (m : Nat) (h : m < 100) : (pad2 m).length = 2 := by
  by_cases h10 : m < 10
  · rw [pad2_lt10 m h10]
    rfl
  · rw [pad2_ge10 m (by omega) h]
    exact natRepr_length2 m (by omega) h

theorem digitsVal_pad2 (m : Nat) (h : m < 100) : digitsVal (pad2 m) = m := by
  by_cases h10 : m < 10
  · rw [pad2_lt10 m h10]
    show digitsVal (['0'] ++ [digitChar m]) = m
    rw [digitsVal_append_digit, digitChar_toNat m h10]
    simp [digitsVal]
  · rw [pad2_ge10 m (by omega) h]
    exact digitsVal_natRepr m

/-! ## Facts about `splitDash` and `parseMonthParam` -/

theorem splitDash_no_dash (ys : List Char) (h : ∀ c ∈ ys, c ≠ '-') :
    splitDash ys = [ys] := by
  induction ys with
  | nil => rfl
  | cons c t ih =>
    have hc : c ≠ '-' := h c (List.mem_cons_self c t)
    have ht := ih fun x hx => h x (List.mem_cons_of_mem c hx)
    simp [splitDash, hc, ht]

theorem splitDash_append (xs ys : List Char) (hx : ∀ c ∈ xs, c ≠ '-') :
    splitDash (xs ++ '-' :: ys) = xs :: splitDash ys := by
  induction xs with
  | nil => simp [splitDash]
  | cons c t ih =>
    have hc : c ≠ '-' := hx c (List.mem_cons_self c t)
    have ht := ih fun x hxm => hx x (List.mem_cons_of_mem c hxm)
    simp [splitDash, hc, ht]

/-- Parsing a label built by `fmtLabel` recovers its group key (the month
component is at most two digits, as every `$month` value is). -/
theorem parseMonthParam_fmtLabel (y m : Nat) (hm : m < 100) :
    parseMonthParam (fmtLabel (y, m)) = (y, m) := by
  have hy : ∀ c ∈ natRepr y, c ≠ '-' :=
    fun c hc => ne_dash_of_isDigit c (natRepr_all_digits y c hc)
  have hmm : ∀ c ∈ pad2 m, c ≠ '-' :=
    fun c hc => ne_dash_of_isDigit c (pad2_all_digits m c hc)
  unfold parseMonthParam fmtLabel
  rw [show (String.mk (natRepr y ++ '-' :: pad2 m)).data = natRepr y ++ '-' :: pad2 m from rfl]
  rw [splitDash_append (natRepr y) (pad2 m) hy, splitDash_no_dash (pad2 m) hmm]
  simp [digitsVal_natRepr, digitsVal_pad2 m hm]

theorem length2_eq (l : List Char) (h : l.length = 2) : ∃ a b, l = [a, b] := by
  rcases l with _ | ⟨a, l⟩
  · simp at h
  rcases l with _ | ⟨b, l⟩
  · simp at h
  rcases l with _ | ⟨c, l⟩
  · exact ⟨a, b, rfl⟩
  · simp only [List.length_cons] at h
    omega

theorem length4_eq (l : List Char) (h : l.length = 4) : ∃ a b c d, l = [a, b, c, d] := by
  rcases l with _ | ⟨a, l⟩
  · simp at h
  rcases l with _ | ⟨b, l⟩
  · simp at h
  rcases l with _ | ⟨c, l⟩
  · simp at h
  rcases l with _ | ⟨d, l⟩
  · simp at h
  rcases l with _ | ⟨e, l⟩
  · exact ⟨a, b, c, d, rfl⟩
  · simp only [List.length_cons] at h
    omega

/-- A label built from a four-digit year and a `$month` value passes the
`/^\d{4}-\d{2}$/` test. -/
theorem monthRe_fmtLabel (y m : Nat) (hy1 : 1000 ≤ y) (hy2 : y ≤ 9999) (hm : m < 100) :
    monthRe (fmtLabel (y, m)) = true := by
  obtain ⟨a, b, c, d, hy⟩ := length4_eq (natRepr y) (natRepr_length4 y hy1 (by omega))
  obtain ⟨p, q, hp⟩ := length2_eq (pad2 m) (pad2_length m hm)
  have hdig := natRepr_all_digits y
  have hpdig := pad2_all_digits m
  rw [hy] at hdig
  rw [hp] at hpdig
  have ha := hdig a (by simp)
  have hb := hdig b (by simp)
  have hc := hdig c (by simp)
  have hd := hdig d (by simp)
  have hq1 := hpdig p (by simp)
  have hq2 := hpdig q (by simp)
  have hlabel : (fmtLabel (y, m)).data = [a, b, c, d, '-', p, q] := by
    show natRepr y ++ '-' :: pad2 m = _
    rw [hy, hp]
    rfl
  unfold monthRe
  rw [hlabel]
  simp [ha, hb, hc, hd, hq1, hq2]

theorem mem_monthlySummaryKeys (store : List Expense) (owner : Nat) (k : Nat × Nat) :
    k ∈ monthlySummaryKeys store owner ↔ ∃ e ∈ ownerExpenses store owner, ekey e = k := by
  unfold monthlySummaryKeys
  rw [List.mem_insertionSort, List.mem_dedup, List.mem_map]

theorem mem_monthlySummary (store : List Expense) (owner : Nat) (b : MonthlyBucket) :
    b ∈ monthlySummary store owner ↔
      ∃ k ∈ monthlySummaryKeys store owner,
        b = ⟨fmtLabel k, groupTotal ekey (ownerExpenses store owner) k⟩ := by
  unfold monthlySummary
  rw [List.mem_map]
  constructor
  · rintro ⟨k, hk, rfl⟩
    exact ⟨k, hk, rfl⟩
  · rintro ⟨k, hk, rfl⟩
    exact ⟨k, hk, rfl⟩

/-- C1: for every user and every set of Expense records, the sum of the
totals of all `MonthlyBucket`s returned by `monthlySummary(owner)` equals
the sum of the amounts of all Expense records owned by that owner. -/
theorem monthlySummary_total_eq_sum_owned (store : List Expense) (owner : Nat) :
    ((monthlySummary store owner).map MonthlyBucket.total).sum =
      sumAmounts (store.filter fun e => decide (e.user = owner)) := by
  unfold monthlySummary
  rw [List.map_map]
  have hmap : (MonthlyBucket.total ∘ fun k =>
      MonthlyBucket.mk (fmtLabel k) (groupTotal ekey (ownerExpenses store owner) k)) =
      groupTotal ekey (ownerExpenses store owner) := rfl
  rw [hmap]
  have hperm : List.Perm (monthlySummaryKeys store owner)
      (((ownerExpenses store owner).map ekey).dedup) :=
    List.perm_insertionSort lexLe _
  rw [(hperm.map (groupTotal ekey (ownerExpenses store owner))).sum_eq]
  exact sum_groupTotals ekey _ _ (List.nodup_dedup _)
    (fun e he => List.mem_dedup.mpr (List.mem_map_of_mem ekey he))

/-- C3: a `month` query parameter that fails `/^\d{4}-\d{2}$/` makes the
daily route answer a 400 `ValidationError`, for any store contents and any
caller: the result does not depend on the store, which is never queried
(the route returns before the `Expense.aggregate` call). -/
theorem dailySummary_invalid_month_no_store_access (month : String)
    (h : monthRe month = false) :
    ∀ (store : List Expense) (owner : Nat),
      dailySummary store owner month = Except.error Err.validationError := by
  intro store owner
  simp [dailySummary, h]

theorem dailySummary_invalid_month_witness :
    dailySummary [⟨1, 1, "lunch", 5, "Food", ⟨2024, 5, 3⟩⟩] 1 "2024-1" =
      Except.error Err.validationError :=
  dailySummary_invalid_month_no_store_access "2024-1" (by decide) _ 1

/-- C5: `availableBalance` is exactly income minus current-month spending,
with no rounding or clamping; it is negative iff spending exceeds income,
zero iff they agree, and the sign alone picks the CSS display class. -/
theorem availableBalance_spec (income spent : ℚ) :
    availableBalance income spent = income - spent ∧
    (availableBalance income spent < 0 ↔ income < spent) ∧
    (availableBalance income spent = 0 ↔ spent = income) ∧
    (balanceClass (availableBalance income spent) = "balance-positive" ↔
      0 ≤ availableBalance income spent) ∧
    (balanceClass (availableBalance income spent) = "balance-negative" ↔
      availableBalance income spent < 0) := by
  unfold availableBalance balanceClass
  refine ⟨rfl, ?_, ?_, ?_, ?_⟩
  · constructor <;> intro h <;> linarith
  · rw [sub_eq_zero]
    exact eq_comm
  · by_cases h : (0 : ℚ) ≤ income - spent
    · simp [h]
    · simp [h]
  · by_cases h : (0 : ℚ) ≤ income - spent
    · simp [h]
      linarith
    · simp [h]
      linarith [lt_of_not_le h]

theorem foldl_add_amount (l : List Expense) :
    ∀ a : ℚ, List.foldl (fun total e => total + e.amount) a l = a + sumAmounts l := by
  induction l with
  | nil =>
    intro a
    simp [sumAmounts]
  | cons e t ih =>
    intro a
    rw [List.foldl_cons, ih, sumAmounts_cons]
    ring

/-- C6: `currentMonthTotal` is the sum of the amounts of exactly those
expenses whose date has the same calendar year and month as `now`; it is a
function of the expense list and the current time only. -/
theorem currentMonthTotal_spec (expenses : List Expense) (now : Date) :
    currentMonthTotal expenses now =
      ((expenses.filter fun e =>
          decide (e.date.year = now.year ∧ e.date.month = now.month)).map
        Expense.amount).sum := by
  unfold currentMonthTotal
  rw [foldl_add_amount, zero_add]
  rw [show (fun (e : Expense) => decide (e.date.year = now.year ∧ e.date.month = now.month)) =
      (fun e => decide (e.date.year = now.year) && decide (e.date.month = now.month)) from
    funext fun e => by rw [Bool.decide_and]]
  rfl

/-- C10: a `month` parameter that passes the regex but whose month number
is outside 1-12 (such as "2024-13") is not rejected: the route queries the
store and answers `{ month, days: [] }`, because no stored calendar month
(always in 1-12) can equal it. -/
theorem dailySummary_oob_month_ok (store : List Expense) (owner : Nat) (month : String)
    (hre : monthRe month = true)
    (hout : (parseMonthParam month).2 = 0 ∨ 12 < (parseMonthParam month).2)
    (hwf : ∀ e ∈ store, 1 ≤ e.date.month ∧ e.date.month ≤ 12) :
    dailySummary store owner month = Except.ok ⟨month, []⟩ := by
  unfold dailySummary
  rw [if_pos hre]
  have hfilter : dailyMatched store owner (parseMonthParam month) = [] := by
    unfold dailyMatched
    rw [List.filter_eq_nil_iff]
    intro e he
    have hm := hwf e he
    simp only [Bool.and_eq_true, decide_eq_true_eq, not_and]
    intro _ hmonth
    omega
  have hdays : dailyDays store owner (parseMonthParam month) = [] := by
    unfold dailyDays
    rw [hfilter]
    rfl
  rw [hdays]

theorem dailySummary_oob_month_witness :
    dailySummary [⟨1, 1, "lunch", 5, "Food", ⟨2024, 5, 3⟩⟩] 1 "2024-13" =
      Except.ok ⟨"2024-13", []⟩ :=
  dailySummary_oob_month_ok _ 1 "2024-13" (by decide) (by decide) (by decide)

theorem parseMonthParam_fmtLabel_pair (k : Nat × Nat) (hm : k.2 < 100) :
    parseMonthParam (fmtLabel k) = k := by
  obtain ⟨y, m⟩ := k
  exact parseMonthParam_fmtLabel y m hm

theorem monthRe_fmtLabel_pair (k : Nat × Nat) (h1 : 1000 ≤ k.1) (h2 : k.1 ≤ 9999)
    (hm : k.2 < 100) : monthRe (fmtLabel k) = true := by
  obtain ⟨y, m⟩ := k
  exact monthRe_fmtLabel y m h1 h2 hm

/-- Every group key of the monthly summary comes from some expense of the
owner, so bounds on the owner's expense dates carry over to the keys. -/
theorem monthlySummaryKeys_bounds (store : List Expense) (owner : Nat)
    (hy : ∀ e ∈ store, e.user = owner →
      1000 ≤ e.date.year ∧ e.date.year ≤ 9999 ∧ 1 ≤ e.date.month ∧ e.date.month ≤ 12) :
    ∀ k ∈ monthlySummaryKeys store owner,
      1000 ≤ k.1 ∧ k.1 ≤ 9999 ∧ 1 ≤ k.2 ∧ k.2 ≤ 12 := by
  intro k hk
  obtain ⟨e, he, hek⟩ := (mem_monthlySummaryKeys store owner k).mp hk
  have he' : e ∈ store.filter (fun e => decide (e.user = owner)) := he
  have hmem := List.mem_filter.mp he'
  have hbounds := hy e hmem.1 (by simpa using hmem.2)
  rw [← hek]
  exact hbounds

/-- A store with one expense whose date lies in year 794 (any timestamp
between year 1 and year 999 can be stored: the create route accepts any
parseable date and Mongo stores it). -/
def cexStore : List Expense :=
  [⟨1, 7, "rent", 5, "Bills", ⟨794, 5, 3⟩⟩]

/-- C4 counterexample: the label the monthly route builds for the group
`(794, 5)` is `"794-05"` — the JS template does not zero-pad the year, so
the label is not a four-digit year, hyphen, two-digit month. -/
theorem monthlySummary_label_counterexample :
    (monthlySummary cexStore 7).map MonthlyBucket.label = ["794-05"] ∧
    monthRe "794-05" = false := by
  exact ⟨rfl, by decide⟩

/-- C4 (amended): provided every expense of the owner has a four-digit year
(1000-9999) — the only years the unpadded `${year}` interpolation renders
with four digits — every label of `monthlySummary` matches
`/^\d{4}-\d{2}$/` (four-digit year, hyphen, two-digit zero-padded month),
and the buckets are sorted ascending by year then month (their parsed
labels are pairwise `lexLe`-ordered). -/
theorem monthlySummary_labels_format_sorted (store : List Expense) (owner : Nat)
    (hy : ∀ e ∈ store, e.user = owner →
      1000 ≤ e.date.year ∧ e.date.year ≤ 9999 ∧ 1 ≤ e.date.month ∧ e.date.month ≤ 12) :
    (∀ b ∈ monthlySummary store owner, monthRe b.label = true) ∧
    List.Pairwise (fun b1 b2 : MonthlyBucket =>
        lexLe (parseMonthParam b1.label) (parseMonthParam b2.label))
      (monthlySummary store owner) := by
  have hkey := monthlySummaryKeys_bounds store owner hy
  constructor
  · intro b hb
    obtain ⟨k, hk, rfl⟩ := (mem_monthlySummary store owner b).mp hb
    obtain ⟨h1, h2, h3, h4⟩ := hkey k hk
    exact monthRe_fmtLabel_pair k h1 h2 (by omega)
  · unfold monthlySummary
    rw [List.pairwise_map]
    have hsorted : List.Pairwise lexLe (monthlySummaryKeys store owner) :=
      List.sorted_insertionSort lexLe _
    refine hsorted.imp_of_mem ?_
    intro a b ha hb hab
    dsimp only
    obtain ⟨ha1, ha2, ha3, ha4⟩ := hkey a ha
    obtain ⟨hb1, hb2, hb3, hb4⟩ := hkey b hb
    rw [parseMonthParam_fmtLabel_pair a (by omega),
      parseMonthParam_fmtLabel_pair b (by omega)]
    exact hab

/-- A two-month store with well-formed four-digit years. -/
def wStore : List Expense :=
  [⟨1, 3, "snack", 4, "Food", ⟨2024, 1, 5⟩⟩,
   ⟨2, 3, "bus", 6, "Travel", ⟨2023, 12, 2⟩⟩]

theorem monthlySummary_labels_format_sorted_witness :
    (∀ b ∈ monthlySummary wStore 3, monthRe b.label = true) ∧
    List.Pairwise (fun b1 b2 : MonthlyBucket =>
        lexLe (parseMonthParam b1.label) (parseMonthParam b2.label))
      (monthlySummary wStore 3) :=
  monthlySummary_labels_format_sorted wStore 3 (by decide)

/-- The daily `$match` restricted to `(year, month)` equals the owner's
expenses filtered by the monthly group key. -/
theorem dailyMatched_eq_group_filter (store : List Expense) (owner : Nat) (k : Nat × Nat) :
    dailyMatched store owner k =
      (ownerExpenses store owner).filter fun e => decide (ekey e = k) := by
  unfold dailyMatched ownerExpenses
  rw [List.filter_filter]
  apply List.filter_congr
  intro e _
  have hiff : (ekey e = k) ↔ (e.date.year = k.1 ∧ e.date.month = k.2) := by
    unfold ekey
    rw [Prod.ext_iff]
  rw [decide_eq_decide.mpr hiff, Bool.decide_and]
  cases hu : decide (e.user = owner) <;>
    cases hy2 : decide (e.date.year = k.1) <;>
      cases hm2 : decide (e.date.month = k.2) <;>
        simp [hu, hy2, hm2]

/-- The day totals of the daily route sum to the month's group total. -/
theorem dailyDays_total_sum (store : List Expense) (owner : Nat) (k : Nat × Nat) :
    ((dailyDays store owner k).map DailyBucket.total).sum =
      groupTotal ekey (ownerExpenses store owner) k := by
  unfold dailyDays
  rw [List.map_map]
  have hmap : (DailyBucket.total ∘ fun d =>
      DailyBucket.mk d (groupTotal (fun e => e.date.day) (dailyMatched store owner k) d)) =
      groupTotal (fun e => e.date.day) (dailyMatched store owner k) := rfl
  rw [hmap]
  have hperm : List.Perm
      (List.insertionSort (· ≤ ·) ((dailyMatched store owner k).map (fun e => e.date.day)).dedup)
      (((dailyMatched store owner k).map (fun e => e.date.day)).dedup) :=
    List.perm_insertionSort _ _
  rw [(hperm.map (groupTotal (fun e => e.date.day) (dailyMatched store owner k))).sum_eq]
  rw [sum_groupTotals (fun e => e.date.day)
    ((dailyMatched store owner k).map (fun e => e.date.day)).dedup
    (dailyMatched store owner k) (List.nodup_dedup _)
    (fun e he => List.mem_dedup.mpr (List.mem_map_of_mem (fun e => e.date.day) he))]
  rw [dailyMatched_eq_group_filter]
  rfl

/-- C2 (amended): for every bucket of `monthlySummary(owner)` — under the
four-digit-year condition that makes its label well-formed, with calendar
months 1-12 — `dailySummary(owner, label)` succeeds, echoes the label, and
its day totals sum to that bucket's total. Without the year condition this
fails: see the counterexample, where the label fails the daily route's
regex and the route answers 400. -/
theorem dailySummary_days_sum_eq_monthly_total (store : List Expense) (owner : Nat)
    (hy : ∀ e ∈ store, e.user = owner →
      1000 ≤ e.date.year ∧ e.date.year ≤ 9999 ∧ 1 ≤ e.date.month ∧ e.date.month ≤ 12) :
    ∀ b ∈ monthlySummary store owner, ∃ r : DailyResult,
      dailySummary store owner b.label = Except.ok r ∧
      r.month = b.label ∧
      (r.days.map DailyBucket.total).sum = b.total := by
  have hkey := monthlySummaryKeys_bounds store owner hy
  intro b hb
  obtain ⟨k, hk, rfl⟩ := (mem_monthlySummary store owner b).mp hb
  obtain ⟨h1, h2, h3, h4⟩ := hkey k hk
  refine ⟨⟨fmtLabel k, dailyDays store owner k⟩, ?_, rfl, ?_⟩
  · show dailySummary store owner (fmtLabel k) = _
    unfold dailySummary
    rw [if_pos (monthRe_fmtLabel_pair k h1 h2 (by omega))]
    rw [parseMonthParam_fmtLabel_pair k (by omega)]
  · show ((dailyDays store owner k).map DailyBucket.total).sum = _
    rw [dailyDays_total_sum]

/-- C2 counterexample: with an expense dated in year 794 the monthly
summary contains the label `"794-05"`, but `dailySummary` on that very
label fails the `/^\d{4}-\d{2}$/` validation and answers a 400 instead of
any day buckets. -/
theorem dailySummary_label_counterexample :
    (monthlySummary cexStore 7).map MonthlyBucket.label = ["794-05"] ∧
    dailySummary cexStore 7 "794-05" = Except.error Err.validationError := by
  exact ⟨rfl, rfl⟩

theorem dailySummary_days_sum_eq_monthly_total_witness :
    ∃ r : DailyResult,
      dailySummary wStore 3 "2023-12" = Except.ok r ∧
      r.month = "2023-12" ∧
      (r.days.map DailyBucket.total).sum = 6 := by
  have hb : (⟨"2023-12", (6 : ℚ)⟩ : MonthlyBucket) ∈ monthlySummary wStore 3 := by
    have hkeys : monthlySummaryKeys wStore 3 = [(2023, 12), (2024, 1)] := rfl
    have hl1 : fmtLabel (2023, 12) = "2023-12" := rfl
    have htot : groupTotal ekey (ownerExpenses wStore 3) (2023, 12) = 6 := by
      simp [groupTotal, ownerExpenses, wStore, ekey, sumAmounts]
    unfold monthlySummary
    rw [hkeys]
    simp only [List.map_cons, List.map_nil, hl1, htot]
    exact List.mem_cons_self _ _
  exact dailySummary_days_sum_eq_monthly_total wStore 3 (by decide) ⟨"2023-12", 6⟩ hb

/-! ## Income and delete route proofs -/

/-- `find?` after the income update: the looked-up user is the updated one
exactly when the lookup id is the updated id. -/
theorem find_map_update (users : List User) (owner : Nat) (q : ℚ) (id : Nat) :
    (users.map fun u => if u.id = owner then { u with monthlyIncome := q } else u).find?
        (fun u => decide (u.id = id)) =
      if owner = id then
        (users.find? (fun u => decide (u.id = id))).map
          (fun u => { u with monthlyIncome := q })
      else users.find? (fun u => decide (u.id = id)) := by
  induction users with
  | nil => by_cases h : owner = id <;> simp [h]
  | cons u t ih =>
    by_cases hu : u.id = owner
    · by_cases hid : u.id = id
      · have ho : owner = id := by omega
        simp [List.find?_cons, hu, hid, ho]
      · have ho : ¬ (owner = id) := by omega
        simp only [List.map_cons, List.find?_cons, hu, if_true, hid, decide_eq_false hid]
        simp only [ho, if_false] at ih ⊢
        exact ih
    · by_cases hid : u.id = id
      · have ho : ¬ (owner = id) := by omega
        have hio : ¬ (id = owner) := by omega
        simp [List.find?_cons, hu, hid, ho, hio]
      · simp only [List.map_cons, List.find?_cons, hu, if_false, decide_eq_false hid]
        exact ih

/-- C7: `setIncome` rejects a non-number or negative income with a 400 and
leaves the user collection untouched; a non-negative numeric income is
written to the caller's document (other users untouched) and echoed back. -/
theorem setIncome_spec (users : List User) (owner : Nat) (v : JsValue) :
    (validIncome v = false → setIncome users owner v = (users, IncomeResp.invalid)) ∧
    (∀ q : ℚ, v = JsValue.num q → 0 ≤ q → getIncome users owner ≠ none →
      (setIncome users owner v).2 = IncomeResp.updated q ∧
      getIncome (setIncome users owner v).1 owner = some q ∧
      ∀ id, id ≠ owner → getIncome (setIncome users owner v).1 id = getIncome users id) := by
  constructor
  · intro hv
    match v with
    | JsValue.other => rfl
    | JsValue.num q =>
      simp only [validIncome, decide_eq_false_iff_not, not_le] at hv
      simp only [setIncome]
      rw [if_pos hv]
  · rintro q rfl hq hex
    have hnotlt : ¬ (q < 0) := not_lt.mpr hq
    unfold getIncome at hex
    cases hfind : users.find? (fun u => decide (u.id = owner)) with
    | none =>
      rw [hfind] at hex
      simp at hex
    | some u =>
      have hset : setIncome users owner (JsValue.num q) =
          (users.map fun u => if u.id = owner then { u with monthlyIncome := q } else u,
            IncomeResp.updated q) := by
        simp only [setIncome]
        rw [if_neg hnotlt, hfind]
      rw [hset]
      refine ⟨rfl, ?_, ?_⟩
      · unfold getIncome
        rw [find_map_update, if_pos rfl, hfind]
        rfl
      · intro id hid
        unfold getIncome
        rw [find_map_update, if_neg (Ne.symm hid)]

theorem setIncome_spec_witness :
    setIncome [⟨1, "ann", "ann@mail.test", 0⟩] 1 JsValue.other =
      ([⟨1, "ann", "ann@mail.test", 0⟩], IncomeResp.invalid) ∧
    (setIncome [⟨1, "ann", "ann@mail.test", 0⟩] 1 (JsValue.num 5)).2 =
      IncomeResp.updated 5 ∧
    getIncome (setIncome [⟨1, "ann", "ann@mail.test", 0⟩] 1 (JsValue.num 5)).1 1 = some 5 :=
  ⟨(setIncome_spec [⟨1, "ann", "ann@mail.test", 0⟩] 1 JsValue.other).1 rfl,
    ((setIncome_spec [⟨1, "ann", "ann@mail.test", 0⟩] 1 (JsValue.num 5)).2 5 rfl
      (by norm_num) (by decide)).1,
    ((setIncome_spec [⟨1, "ann", "ann@mail.test", 0⟩] 1 (JsValue.num 5)).2 5 rfl
      (by norm_num) (by decide)).2.1⟩

/-- C8: deleting a missing id answers 404 and changes nothing; deleting
another user's expense answers 401 and the record stays in the store;
deleting the caller's own expense removes exactly the documents with that
id and keeps every other record. -/
theorem deleteExpense_spec (store : List Expense) (id caller : Nat) :
    (findById store id = none → deleteExpense store id caller = (store, DeleteResp.notFound)) ∧
    (∀ e, findById store id = some e → e.user ≠ caller →
      deleteExpense store id caller = (store, DeleteResp.notAuthorized)) ∧
    (∀ e, findById store id = some e → e.user = caller →
      (deleteExpense store id caller).2 = DeleteResp.removed ∧
      (∀ x ∈ (deleteExpense store id caller).1, x.id ≠ id) ∧
      (∀ x ∈ store, x.id ≠ id → x ∈ (deleteExpense store id caller).1)) := by
  refine ⟨?_, ?_, ?_⟩
  · intro h
    unfold deleteExpense
    rw [h]
  · intro e he hne
    unfold deleteExpense
    rw [he]
    simp only [if_neg hne]
  · intro e he hu
    have hdel : deleteExpense store id caller =
        (store.filter fun x => decide (x.id ≠ id), DeleteResp.removed) := by
      unfold deleteExpense
      rw [he]
      simp only [if_pos hu]
    rw [hdel]
    refine ⟨rfl, ?_, ?_⟩
    · intro x hx
      have hmem := (List.mem_filter.mp hx).2
      simpa using hmem
    · intro x hx hne
      exact List.mem_filter.mpr ⟨hx, by simpa using hne⟩

/-- A one-expense store for exercising the delete route: expense 5 is owned
by user 2. -/
def dStore : List Expense :=
  [⟨5, 2, "tea", 3, "Food", ⟨2024, 6, 1⟩⟩]

theorem deleteExpense_spec_witness :
    deleteExpense dStore 9 2 = (dStore, DeleteResp.notFound) ∧
    deleteExpense dStore 5 4 = (dStore, DeleteResp.notAuthorized) ∧
    (deleteExpense dStore 5 2).2 = DeleteResp.removed :=
  ⟨(deleteExpense_spec dStore 9 2).1 rfl,
    (deleteExpense_spec dStore 5 4).2.1 ⟨5, 2, "tea", 3, "Food", ⟨2024, 6, 1⟩⟩ rfl (by decide),
    ((deleteExpense_spec dStore 5 2).2.2 ⟨5, 2, "tea", 3, "Food", ⟨2024, 6, 1⟩⟩ rfl rfl).1⟩

/-- C9 (code bug): the spec's data model requires `amount` to be a
non-negative decimal (and the dashboard form enforces `min="0.01"`), but
ExpenseSchema has no `min` validator on `amount` and the POST handler never
checks the sign: a create request with amount -5 is accepted and the
negative amount is stored verbatim. -/
theorem createExpense_negative_amount_accepted :
    createExpense [] 1 7 "Lunch" (-5) "Food" ⟨2024, 5, 3⟩ =
      ([⟨1, 7, "Lunch", -5, "Food", ⟨2024, 5, 3⟩⟩],
        some ⟨1, 7, "Lunch", -5, "Food", ⟨2024, 5, 3⟩⟩) ∧
    (-5 : ℚ) < 0 := by
  constructor
  · rfl
  · norm_num
